import Mathlib

/-!
# A shallow embedding of `log.hpp` (Eleobert/boost-log-wrapper)

The header wraps Boost.Log: a five-level severity enumeration with two display
operators, a console formatter (ANSI coloured) and a file formatter (plain), two
sinks filtered by a minimum severity, `init`, and the variadic emission functions
`debug/info/warning/error/fatal`.

A `std::ostream` a caller hands to a display operator is modelled by the text written
so far together with the format flags that integer insertion reads. The formatting
stream a sink frontend hands to a formatter, and the `record_ostream` of an emission
call, are created in the default formatting state and nothing in the header changes
their flags, so they are modelled by their text alone; `strm << x` appends. A call
that does not return normally (an access outside an array, an exception) yields
`none`.
-/

namespace logger

/-! ## Severity -/

/-- The scoped enumeration `severity_level`. Its underlying type is `int`, so every
`int` is a value of the type (`static_cast<severity_level>(7)` is well defined); the
five enumerators are the values 0 to 4. -/
structure severity_level where
  val : Int
  is_int : -2147483648 ≤ val ∧ val ≤ 2147483647
deriving DecidableEq

namespace severity_level

def debug : severity_level := ⟨0, by decide⟩
def info : severity_level := ⟨1, by decide⟩
def warning : severity_level := ⟨2, by decide⟩
def error : severity_level := ⟨3, by decide⟩
def fatal : severity_level := ⟨4, by decide⟩

/-- The built-in `>=` of a scoped enumeration compares the underlying values. -/
def ge (a b : severity_level) : Bool := decide (b.val ≤ a.val)

end severity_level

/-- The conversion `static_cast< std::size_t >(level)`: the value modulo `2^64`. -/
def static_cast_size_t (level : severity_level) : Nat := (level.val % 2 ^ 64).toNat

/-- The conversion `static_cast< int >(level)`: the underlying value. -/
def static_cast_int (level : severity_level) : Int := level.val

/-- The table `strings[]` of both display operators. -/
def strings : List String := ["debg", "info", "warn", "errr", "ftal"]

/-- Reading `table[i]` for an `int` index; `none` is an access outside the table. -/
def index_int (table : List String) (i : Int) : Option String :=
  if 0 ≤ i then table[i.toNat]? else none

/-- The `basefield` of a stream's format flags. Integer insertion is octal or
hexadecimal only when the field is exactly `oct` or `hex`; every other setting
formats in decimal and is folded into `dec`. -/
inductive basefield where
  | dec
  | oct
  | hex
deriving DecidableEq

/-- The format flags that the insertion of an integer reads. -/
structure fmtflags where
  base : basefield
  showbase : Bool
  showpos : Bool
  uppercase : Bool
deriving DecidableEq

/-- The flags of a freshly constructed stream. -/
def fmtflags.default : fmtflags :=
  { base := basefield.dec, showbase := false, showpos := false, uppercase := false }

/-- A `std::ostream`, or the stream under a `formatting_ostream`: the text written
so far and its format flags. No field width is pending and the locale is the
classic one, so nothing is padded or grouped. -/
structure ostream where
  text : String
  flags : fmtflags
deriving DecidableEq

/-- Appending text to a stream; the flags stay. -/
def ostream.write (stream : ostream) (s : String) : ostream :=
  { stream with text := stream.text ++ s }

/-- The text `num_put` produces for an `int` under given flags. In decimal the value
is signed and `showpos` puts `+` before a value that is not negative. In octal and
hexadecimal the value is first converted to `unsigned int` (modulo `2^32`), and
`showbase` puts `0` or `0x` (`0X` with `uppercase`) before a value that is not 0. -/
def num_put_int (f : fmtflags) (i : Int) : String :=
  match f.base with
  | basefield.dec =>
    if i < 0 then toString i else (if f.showpos then "+" else "") ++ toString i
  | basefield.oct =>
    (if f.showbase && decide (i ≠ 0) then "0" else "") ++
      (Nat.toDigits 8 (i % 2 ^ 32).toNat).asString
  | basefield.hex =>
    if f.uppercase then
      (if f.showbase && decide (i ≠ 0) then "0X" else "") ++
        ((Nat.toDigits 16 (i % 2 ^ 32).toNat).map Char.toUpper).asString
    else
      (if f.showbase && decide (i ≠ 0) then "0x" else "") ++
        (Nat.toDigits 16 (i % 2 ^ 32).toNat).asString

/-- Insertion of an `int` into a stream: the text its flags call for. -/
def shl_int (stream : ostream) (i : Int) : ostream :=
  stream.write (num_put_int stream.flags i)

/-- Insertion of an `unsigned int` into a stream in the default formatting state:
its decimal text. -/
def shl_unsigned (stream : String) (n : Nat) : String := stream ++ toString n

/-- The operator `operator<<(std::ostream&, severity_level)` (log.hpp 32-44). -/
def operator_shl_ostream (stream : ostream) (level : severity_level) : Option ostream :=
  if static_cast_size_t level < strings.length then
    (index_int strings (static_cast_int level)).map (fun s => stream.write s)
  else
    some (shl_int stream (static_cast_int level))

/-- The operator `operator<<(formatting_ostream&, to_log_manip<severity_level,
severity_tag> const&)` (log.hpp 47-62); `manip.get()` is the wrapped level. -/
def operator_shl_to_log_manip (strm : ostream) (manip : severity_level) : Option ostream :=
  let level := manip
  if static_cast_size_t level < strings.length then
    (index_int strings (static_cast_int level)).map (fun s => strm.write s)
  else
    some (shl_int strm (static_cast_int level))

/-! ## Timestamps (Boost.DateTime and the C library) -/

/-- The calendar fields of a `boost::posix_time::ptime` that is not a special value.
Boost's dates run from 1400-01-01 to 9999-12-31 and its times of day carry no leap
second; fractional seconds play no part in the formatters. -/
structure date_time where
  year : Nat
  month : Nat
  day : Nat
  hours : Nat
  minutes : Nat
  seconds : Nat
  in_range : 1400 ≤ year ∧ year ≤ 9999 ∧ 1 ≤ month ∧ month ≤ 12 ∧ 1 ≤ day ∧ day ≤ 31 ∧
    hours ≤ 23 ∧ minutes ≤ 59 ∧ seconds ≤ 59
deriving DecidableEq

/-- The special values of Boost.DateTime. -/
inductive special_values where
  | not_a_date_time
  | neg_infin
  | pos_infin
deriving DecidableEq

/-- A `boost::posix_time::ptime`: a special value or a regular point in time. -/
inductive ptime where
  | special (v : special_values)
  | regular (t : date_time)
deriving DecidableEq

/-- The fields of `std::tm` read by the format `%Y-%m-%d %H:%M:%S`; each is an `int`. -/
structure tm where
  tm_sec : Int
  tm_min : Int
  tm_hour : Int
  tm_mday : Int
  tm_mon : Int
  tm_year : Int
  are_int : ∀ v ∈ [tm_sec, tm_min, tm_hour, tm_mday, tm_mon, tm_year],
    -2147483648 ≤ v ∧ v ≤ 2147483647
deriving DecidableEq

/-- The `std::tm` of a regular point in time: months count from 0, years from 1900. -/
def date_time.to_tm (t : date_time) : tm :=
  { tm_sec := t.seconds, tm_min := t.minutes, tm_hour := t.hours, tm_mday := t.day,
    tm_mon := (t.month : Int) - 1, tm_year := (t.year : Int) - 1900,
    are_int := by
      have h := t.in_range
      intro v hv
      simp only [List.mem_cons, List.mem_singleton, List.not_mem_nil, or_false] at hv
      omega }

/-- The conversion `boost::posix_time::to_tm`; on a special value it throws
`std::out_of_range`. -/
def to_tm (t : ptime) : Option tm :=
  match t with
  | ptime.regular d => some d.to_tm
  | ptime.special _ => none

/-- A two-column conversion of `strftime` (`%m %d %H %M %S`): decimal, zero padded
on the left to two characters. -/
def fmt2 (v : Int) : String :=
  if 0 ≤ v ∧ v < 10 then "0" ++ toString v else toString v

/-- The text of `%Y-%m-%d %H:%M:%S` for a `tm`. -/
def strftime_text (t : tm) : String :=
  toString (t.tm_year + 1900) ++ "-" ++ fmt2 (t.tm_mon + 1) ++ "-" ++ fmt2 t.tm_mday
    ++ " " ++ fmt2 t.tm_hour ++ ":" ++ fmt2 t.tm_min ++ ":" ++ fmt2 t.tm_sec

/-- The call `std::strftime(buf, maxsize, "%Y-%m-%d %H:%M:%S", &ts)`: the number of
characters stored and the buffer; when the text and its terminator do not fit in
`maxsize` bytes the result is 0. -/
def strftime (maxsize : Nat) (t : tm) : Nat × String :=
  let s := strftime_text t
  if s.length + 1 ≤ maxsize then (s.length, s) else (0, "")

/-! ## Records and formatters -/

/-- The attribute values of a `boost::log::record_view` that the formatters read.
Each lookup yields a `value_ref`, which may be empty. -/
structure record_view where
  Severity : Option severity_level
  LineID : Option Nat
  TimeStamp : Option ptime
  Message : Option String
deriving DecidableEq

/-- Insertion of a severity into a sink's formatting stream: the display operator
`operator<<(std::ostream&, severity_level)` on a stream in the default state. -/
def shl_severity (strm : String) (level : severity_level) : Option String :=
  (operator_shl_ostream { text := strm, flags := fmtflags.default } level).map ostream.text

/-- Insertion of a `value_ref` into a `formatting_ostream`: an empty reference
writes nothing, otherwise the referred value is inserted. -/
def shl_value_ref {α : Type} (put : String → α → Option String) (strm : String)
    (v : Option α) : Option String :=
  match v with
  | some x => put strm x
  | none => some strm

/-- The function `_internal_console_formatter` (log.hpp 64-104). The result is
`none` when `to_tm` throws. -/
def _internal_console_formatter (rec : record_view) (strm : String) : Option String :=
  let severity := rec.Severity
  let strm :=
    match severity with
    | some l =>
      if l = severity_level.debug then strm
      else if l = severity_level.info then strm ++ "\x1b[34m"
      else if l = severity_level.warning then strm ++ "\x1b[33m"
      else if l = severity_level.error then strm ++ "\x1b[31m"
      else if l = severity_level.fatal then strm ++ "\x1b[1;31m"
      else strm
    | none => strm
  (shl_value_ref (fun s n => some (shl_unsigned s n)) strm rec.LineID).bind fun strm =>
  let strm := strm ++ ": "
  (match rec.TimeStamp with
    | some timestamp =>
      (to_tm timestamp).map fun ts =>
        let r := strftime 128 ts
        if r.1 > 0 then strm ++ "[" ++ r.2 ++ "]" else strm
    | none => some strm).bind fun strm =>
  let strm := strm ++ "["
  (shl_value_ref shl_severity strm severity).bind fun strm =>
  let strm := strm ++ "] "
  (shl_value_ref (fun s m => some (s ++ m)) strm rec.Message).bind fun strm =>
  let strm := if severity.isSome then strm ++ "\x1b[0m" else strm
  some strm

/-- The function `_internal_file_formatter` (log.hpp 106-124). The result is `none`
when `to_tm` throws. -/
def _internal_file_formatter (rec : record_view) (strm : String) : Option String :=
  let severity := rec.Severity
  (shl_value_ref (fun s n => some (shl_unsigned s n)) strm rec.LineID).bind fun strm =>
  let strm := strm ++ ": "
  (match rec.TimeStamp with
    | some timestamp =>
      (to_tm timestamp).map fun ts =>
        let r := strftime 128 ts
        if r.1 > 0 then strm ++ "[" ++ r.2 ++ "]" else strm
    | none => some strm).bind fun strm =>
  let strm := strm ++ "["
  (shl_value_ref shl_severity strm severity).bind fun strm =>
  let strm := strm ++ "] "
  (shl_value_ref (fun s m => some (s ++ m)) strm rec.Message).bind fun strm =>
  some strm

/-! ## Sinks and the logging core (Boost.Log) -/

/-- The stream a `text_ostream_backend` writes to. -/
inductive destination where
  | clog
  | ofstream (name : String)
deriving DecidableEq

/-- A `synchronous_sink< text_ostream_backend >`: the stream added to its backend,
its formatter, its filter, and the formatted records handed to the backend so far
(oldest first). -/
structure sink where
  stream : destination
  formatter : record_view → String → Option String
  filter : record_view → Bool
  written : List String

/-- The filter expression `expressions::attr< severity_level >("Severity") >= lvl`;
a record without the attribute does not pass. -/
def severity_filter (lvl : severity_level) (attrs : record_view) : Bool :=
  match attrs.Severity with
  | some s => s.ge lvl
  | none => false

/-- The frontend's `will_consume`: the sink's filter applied to the attribute values. -/
def sink.will_consume (s : sink) (attrs : record_view) : Bool := s.filter attrs

/-- The frontend's `consume`: format the record into a fresh stream and hand the
text to the backend; a formatter that does not return hands over nothing. The two
formatters of the header always return on the records `log` builds, whose timestamp
is a clock reading. -/
def sink.consume (s : sink) (rec : record_view) : sink :=
  match s.formatter rec "" with
  | some line => { s with written := s.written ++ [line] }
  | none => s

/-- The state of `boost::log::core`: the registered sinks in registration order,
the records taken by the library's built-in default sink (used only while no sink
is registered), and whether `add_common_attributes()` has been called. The header
never disables the core nor sets a global filter, so neither is part of the state. -/
structure core where
  m_sinks : List sink
  m_default_sink : List record_view
  common_attributes : Bool

/-- The core at process start. -/
def core.uninitialized : core :=
  { m_sinks := [], m_default_sink := [], common_attributes := false }

/-- The call `core::add_sink`. -/
def core.add_sink (c : core) (s : sink) : core :=
  { c with m_sinks := c.m_sinks ++ [s] }

/-- The call `add_common_attributes()`: `LineID` and `TimeStamp` become global
attributes. -/
def add_common_attributes (c : core) : core :=
  { c with common_attributes := true }

/-- An open `boost::log::record`: its attribute values and which sinks accepted it
(one flag per registered sink, and one for the default sink). -/
structure record where
  view : record_view
  accepting : List Bool
  default_accepting : Bool

/-- The call `core::open_record`: every registered sink is asked `will_consume`; with
no registered sink the default sink takes the record. The record is valid only if
some sink accepted it. -/
def core.open_record (c : core) (attrs : record_view) : Option record :=
  if c.m_sinks.isEmpty then
    some { view := attrs, accepting := [], default_accepting := true }
  else
    let accepting := c.m_sinks.map (fun s => s.will_consume attrs)
    if accepting.any id then
      some { view := attrs, accepting := accepting, default_accepting := false }
    else none

/-- The call `core::push_record`: the record goes to each sink that accepted it. -/
def core.push_record (c : core) (rec : record) : core :=
  { c with
    m_sinks := List.zipWith (fun s b => if b then s.consume rec.view else s)
      c.m_sinks rec.accepting
    m_default_sink :=
      if rec.default_accepting then c.m_default_sink ++ [rec.view] else c.m_default_sink }

/-- The function `_internal_init_console_sink` (log.hpp 126-137). -/
def _internal_init_console_sink (lvl : severity_level) (c : core) : core :=
  c.add_sink
    { stream := destination.clog
      formatter := _internal_console_formatter
      filter := severity_filter lvl
      written := [] }

/-- The function `_internal_init_file_sink` (log.hpp 139-149). -/
def _internal_init_file_sink (lvl : severity_level) ( file_prefix : String) (c : core) :
    core :=
  c.add_sink
    { stream := destination.ofstream ( file_prefix ++ "_%N.log")
      formatter := _internal_file_formatter
      filter := severity_filter lvl
      written := [] }

/-- The function `init` (log.hpp 151-159). The call
`register_simple_formatter_factory` only serves format strings, which the header
never parses, and leaves the core as it is. -/
def init ( file_prefix : String) (lvl : severity_level) (c : core) : core :=
  add_common_attributes
    (_internal_init_file_sink lvl file_prefix (_internal_init_console_sink lvl c))

/-! ## Emission -/

/-- A value passed to an emission function, with the stream insertion of its type.
Stream manipulators, which write no text of their own, are not among the values. -/
inductive arg where
  | str (s : String)
  | chr (ch : Char)
  | int (i : Int)
  | unsigned (n : Nat)
deriving DecidableEq

/-- The insertion `strm << a` into the `record_ostream`, a stream in the default
formatting state. -/
def shl_arg (strm : String) : arg → String
  | arg.str s => strm ++ s
  | arg.chr ch => strm.push ch
  | arg.int i => (shl_int { text := strm, flags := fmtflags.default } i).text
  | arg.unsigned n => shl_unsigned strm n

/-- What the attribute subsystem supplies to one `open_record` call when the common
attributes are registered: the counter value and the reading of the local clock,
which is a regular point in time. -/
structure attribute_readings where
  LineID : Nat
  TimeStamp : date_time

/-- The function template `log<level>(args...)` (log.hpp 160-172). The result is the
core afterwards together with the record that was pushed, if one was opened; the
message stream is built only inside `if (rec)`. -/
def log (level : severity_level) (args : List arg) (env : attribute_readings) (c : core) :
    core × Option record_view :=
  let attrs : record_view :=
    { Severity := some level
      LineID := if c.common_attributes then some env.LineID else none
      TimeStamp := if c.common_attributes then some (ptime.regular env.TimeStamp) else none
      Message := none }
  match c.open_record attrs with
  | some r =>
    let strm := args.foldl shl_arg ""
    let r := { r with view := { r.view with Message := some strm } }
    (c.push_record r, some r.view)
  | none => (c, none)

/-- The function template `debug` (log.hpp 174-178). -/
def debug (args : List arg) (env : attribute_readings) (c : core) :
    core × Option record_view :=
  log severity_level.debug args env c

/-- The function template `info` (log.hpp 180-184). -/
def info (args : List arg) (env : attribute_readings) (c : core) :
    core × Option record_view :=
  log severity_level.info args env c

/-- The function template `warning` (log.hpp 186-190). -/
def warning (args : List arg) (env : attribute_readings) (c : core) :
    core × Option record_view :=
  log severity_level.warning args env c

/-- The function template `error` (log.hpp 192-196). -/
def error (args : List arg) (env : attribute_readings) (c : core) :
    core × Option record_view :=
  log severity_level.error args env c

/-- The function template `fatal` (log.hpp 198-202). -/
def fatal (args : List arg) (env : attribute_readings) (c : core) :
    core × Option record_view :=
  log severity_level.fatal args env c

/-! ## Vocabulary of the properties -/

/-- The canonical display token of a level among the five. -/
def token (l : severity_level) : String :=
  if l = severity_level.debug then "debg"
  else if l = severity_level.info then "info"
  else if l = severity_level.warning then "warn"
  else if l = severity_level.error then "errr"
  else if l = severity_level.fatal then "ftal"
  else ""

/-- The textual representation of an emitted argument. -/
def text : arg → String
  | arg.str s => s
  | arg.chr ch => String.singleton ch
  | arg.int i => toString i
  | arg.unsigned n => toString n

/-- The concatenation of the texts of the arguments, in call order. -/
def concat_text : List arg → String
  | [] => ""
  | a :: rest => text a ++ concat_text rest

/-- The attribute values with which `log` opens its record on a given core. -/
def opened_attrs (level : severity_level) (env : attribute_readings) (c : core) :
    record_view :=
  { Severity := some level
    LineID := if c.common_attributes then some env.LineID else none
    TimeStamp := if c.common_attributes then some (ptime.regular env.TimeStamp) else none
    Message := none }

/-- The escape character, code 27. -/
def ESC : Char := '\x1b'

/-- The reset escape. -/
def reset_escape : String := "\x1b[0m"

/-- The number of positions of `s` at which `pat` occurs. -/
def occurrences (pat : List Char) : List Char → Nat
  | [] => 0
  | c :: cs => (if pat.isPrefixOf (c :: cs) then 1 else 0) + occurrences pat cs

/-- The display text of a severity value: its token among the five levels, the
decimal text of the raw value otherwise. -/
def display (l : severity_level) : String :=
  if 0 ≤ l.val ∧ l.val ≤ 4 then token l else toString l.val

/-- The ANSI colour escape associated with a level: none for debug, blue for info,
yellow for warning, red for error, bold red for fatal. -/
def color_escape (l : severity_level) : String :=
  if l = severity_level.info then "\x1b[34m"
  else if l = severity_level.warning then "\x1b[33m"
  else if l = severity_level.error then "\x1b[31m"
  else if l = severity_level.fatal then "\x1b[1;31m"
  else ""

/-- The two decimal digits of a number below 100. -/
def two_digits (n : Nat) : List Char := [Nat.digitChar (n / 10), Nat.digitChar (n % 10)]

/-- The four decimal digits of a number below 10000. -/
def four_digits (n : Nat) : List Char :=
  [Nat.digitChar (n / 1000), Nat.digitChar (n / 100 % 10), Nat.digitChar (n / 10 % 10),
    Nat.digitChar (n % 10)]

/-- The text `YYYY-MM-DD HH:MM:SS` of a regular point in time. -/
def YYYY_MM_DD_HH_MM_SS (t : date_time) : String :=
  ⟨four_digits t.year ++ '-' :: two_digits t.month ++ '-' :: two_digits t.day ++
    ' ' :: two_digits t.hours ++ ':' :: two_digits t.minutes ++ ':' :: two_digits t.seconds⟩

/-- A regular point in time used in examples: 2024-03-09 04:05:06. -/
def sample_time : date_time :=
  { year := 2024, month := 3, day := 9, hours := 4, minutes := 5, seconds := 6,
    in_range := by decide }

/-- The shape `\d{4}-\d{2}-\d{2} \d{2}:\d{2}:\d{2}`. -/
def stamp_shape : List Char → Bool
  | [y1, y2, y3, y4, '-', m1, m2, '-', d1, d2, ' ', h1, h2, ':', i1, i2, ':', s1, s2] =>
    [y1, y2, y3, y4, m1, m2, d1, d2, h1, h2, i1, i2, s1, s2].all Char.isDigit
  | _ => false

/-- The text a formatter writes for the `LineID` reference. -/
def sequence_text : Option Nat → String
  | some n => toString n
  | none => ""

/-- The text a formatter writes for the `TimeStamp` reference when it returns: the
bracketed `strftime` buffer, or nothing. -/
def stamp_bracket : Option ptime → String
  | some (ptime.regular t) =>
    if (strftime 128 t.to_tm).1 > 0 then "[" ++ (strftime 128 t.to_tm).2 ++ "]" else ""
  | _ => ""

/-- The text a formatter writes for the severity reference. -/
def severity_text : Option severity_level → String
  | some l => display l
  | none => ""

/-- The text a formatter writes for the message reference. -/
def message_text : Option String → String
  | some m => m
  | none => ""

/-- The colour escape the console formatter opens a line with. -/
def color_opening : Option severity_level → String
  | some l => color_escape l
  | none => ""

/-- The plain line: sequence, timestamp bracket, severity token and message. -/
def plain_line (rec : record_view) : String :=
  sequence_text rec.LineID ++ ": " ++ stamp_bracket rec.TimeStamp ++ "[" ++
    severity_text rec.Severity ++ "] " ++ message_text rec.Message

/-! ## The display operators -/

theorem strings_length : strings.length = 5 := rfl

theorem static_cast_size_t_lt_iff (l : severity_level) :
    static_cast_size_t l < 5 ↔ 0 ≤ l.val ∧ l.val ≤ 4 := by
  have h := l.is_int
  unfold static_cast_size_t
  norm_num
  omega

theorem severity_level_ext {a b : severity_level} (h : a.val = b.val) : a = b := by
  cases a; cases b; cases h; rfl

theorem five_levels (l : severity_level) (h : 0 ≤ l.val ∧ l.val ≤ 4) :
    l = severity_level.debug ∨ l = severity_level.info ∨ l = severity_level.warning ∨
      l = severity_level.error ∨ l = severity_level.fatal := by
  have h5 : l.val = 0 ∨ l.val = 1 ∨ l.val = 2 ∨ l.val = 3 ∨ l.val = 4 := by omega
  rcases h5 with h0 | h0 | h0 | h0 | h0
  · exact Or.inl (severity_level_ext h0)
  · exact Or.inr (Or.inl (severity_level_ext h0))
  · exact Or.inr (Or.inr (Or.inl (severity_level_ext h0)))
  · exact Or.inr (Or.inr (Or.inr (Or.inl (severity_level_ext h0))))
  · exact Or.inr (Or.inr (Or.inr (Or.inr (severity_level_ext h0))))

theorem num_put_int_dec (f : fmtflags) (i : Int) (hb : f.base = basefield.dec)
    (hp : f.showpos = false) : num_put_int f i = toString i := by
  unfold num_put_int
  rw [hb]
  simp only [hp]
  split
  · rfl
  · exact String.empty_append _

theorem operator_shl_ostream_eq (strm : ostream) (l : severity_level) :
    operator_shl_ostream strm l =
      some (strm.write
        (if 0 ≤ l.val ∧ l.val ≤ 4 then token l else num_put_int strm.flags l.val)) := by
  by_cases h : 0 ≤ l.val ∧ l.val ≤ 4
  · rw [if_pos h]
    rcases five_levels l h with rfl | rfl | rfl | rfl | rfl <;> rfl
  · have hlt : ¬ static_cast_size_t l < strings.length := by
      rw [strings_length, static_cast_size_t_lt_iff]; exact h
    simp [operator_shl_ostream, hlt, h, shl_int, static_cast_int]

theorem shl_severity_eq (strm : String) (l : severity_level) :
    shl_severity strm l = some (strm ++ display l) := by
  unfold shl_severity
  rw [operator_shl_ostream_eq]
  simp only [Option.map_some', ostream.write, display, Option.some.injEq]
  split
  · rfl
  · rw [num_put_int_dec _ _ rfl rfl]

/-- C4: on each of the five levels both display operators append the canonical
token (debg, info, warn, errr, ftal) to the stream, whatever its text and flags;
every token of the table is four characters long and the tokens are pairwise
distinct. -/
theorem C4_display_tokens :
    (∀ strm : ostream,
      operator_shl_ostream strm severity_level.debug = some (strm.write "debg") ∧
      operator_shl_ostream strm severity_level.info = some (strm.write "info") ∧
      operator_shl_ostream strm severity_level.warning = some (strm.write "warn") ∧
      operator_shl_ostream strm severity_level.error = some (strm.write "errr") ∧
      operator_shl_ostream strm severity_level.fatal = some (strm.write "ftal")) ∧
    (∀ strm : ostream,
      operator_shl_to_log_manip strm severity_level.debug = some (strm.write "debg") ∧
      operator_shl_to_log_manip strm severity_level.info = some (strm.write "info") ∧
      operator_shl_to_log_manip strm severity_level.warning = some (strm.write "warn") ∧
      operator_shl_to_log_manip strm severity_level.error = some (strm.write "errr") ∧
      operator_shl_to_log_manip strm severity_level.fatal = some (strm.write "ftal")) ∧
    (∀ s ∈ strings, s.length = 4) ∧
    strings.Pairwise (fun a b => a ≠ b) := by
  refine ⟨fun strm => ⟨rfl, rfl, rfl, rfl, rfl⟩, fun strm => ⟨rfl, rfl, rfl, rfl, rfl⟩, ?_, ?_⟩
  · decide
  · decide

theorem digitChar_isDigit (d : Nat) (h : d < 10) : (Nat.digitChar d).isDigit = true := by
  interval_cases d <;> rfl

theorem toDigitsCore_succ (f n : Nat) (ds : List Char) :
    Nat.toDigitsCore 10 (f + 1) n ds =
      if n / 10 = 0 then Nat.digitChar (n % 10) :: ds
      else Nat.toDigitsCore 10 f (n / 10) (Nat.digitChar (n % 10) :: ds) := rfl

theorem toDigitsCore_digits (fuel : Nat) : ∀ (n : Nat) (ds : List Char),
    (∀ c ∈ ds, c.isDigit = true) → ∀ c ∈ Nat.toDigitsCore 10 fuel n ds, c.isDigit = true := by
  induction fuel with
  | zero => intro n ds h; simpa [Nat.toDigitsCore] using h
  | succ f ih =>
    intro n ds h
    have hd : ∀ c ∈ Nat.digitChar (n % 10) :: ds, c.isDigit = true := by
      intro c hc
      rcases List.mem_cons.mp hc with rfl | hc
      · exact digitChar_isDigit _ (Nat.mod_lt _ (by decide))
      · exact h c hc
    rw [toDigitsCore_succ]
    split
    · exact hd
    · exact ih _ _ hd

theorem toDigitsCore_ne_nil (fuel n : Nat) (ds : List Char) :
    Nat.toDigitsCore 10 (fuel + 1) n ds ≠ [] := by
  induction fuel generalizing n ds with
  | zero => simp [Nat.toDigitsCore]
  | succ f ih =>
    rw [toDigitsCore_succ]
    split
    · simp
    · exact ih _ _

theorem toString_nat_digits (n : Nat) : ∀ c ∈ (toString n).data, c.isDigit = true :=
  toDigitsCore_digits (n + 1) n [] (by simp)

theorem toString_nat_ne_nil (n : Nat) : (toString n).data ≠ [] :=
  toDigitsCore_ne_nil n n []

theorem toString_int_ofNat (n : Nat) : toString (n : Int) = toString n := rfl

theorem toString_four (y : Nat) (h1 : 1000 ≤ y) (h2 : y ≤ 9999) :
    toString y = ⟨four_digits y⟩ := by
  obtain ⟨k, rfl⟩ : ∃ k, y = k + 1000 := ⟨y - 1000, by omega⟩
  show (Nat.toDigits 10 (k + 1000)).asString = _
  unfold Nat.toDigits four_digits
  have e : k + 1000 + 1 = (k + 997) + 1 + 1 + 1 + 1 := by omega
  rw [e, toDigitsCore_succ, toDigitsCore_succ, toDigitsCore_succ, toDigitsCore_succ]
  rw [if_neg (by omega), if_neg (by omega), if_neg (by omega), if_pos (by omega)]
  simp only [List.asString]
  congr 2
  · congr 1; omega
  · congr 2; congr 1; omega

theorem fmt2_eq (v : Nat) (h : v < 100) : fmt2 (v : Int) = ⟨two_digits v⟩ := by
  interval_cases v <;> rfl

/-! ## Regular timestamps -/

theorem strftime_text_regular (t : date_time) :
    strftime_text t.to_tm = YYYY_MM_DD_HH_MM_SS t := by
  obtain ⟨h1, h2, h3, h4, h5, h6, h7, h8, h9⟩ := t.in_range
  simp only [strftime_text, date_time.to_tm, sub_add_cancel]
  rw [toString_int_ofNat, toString_four t.year (by omega) h2, fmt2_eq t.month (by omega),
    fmt2_eq t.day (by omega), fmt2_eq t.hours (by omega), fmt2_eq t.minutes (by omega),
    fmt2_eq t.seconds (by omega)]
  rfl

theorem strftime_regular (t : date_time) :
    strftime 128 t.to_tm = (19, YYYY_MM_DD_HH_MM_SS t) := by
  simp only [strftime, strftime_text_regular t]
  rfl

theorem stamp_bracket_regular (t : date_time) :
    stamp_bracket (some (ptime.regular t)) = "[" ++ YYYY_MM_DD_HH_MM_SS t ++ "]" := by
  simp only [stamp_bracket, strftime_regular t]
  rfl

theorem stamp_shape_regular (t : date_time) :
    stamp_shape (YYYY_MM_DD_HH_MM_SS t).data = true := by
  obtain ⟨h1, h2, h3, h4, h5, h6, h7, h8, h9⟩ := t.in_range
  have d : ∀ k : Nat, k < 10 → (Nat.digitChar k).isDigit = true := digitChar_isDigit
  simp only [YYYY_MM_DD_HH_MM_SS, four_digits, two_digits, List.cons_append, List.nil_append,
    stamp_shape, List.all_cons, List.all_nil, Bool.and_true, Bool.and_eq_true]
  refine ⟨d _ (by omega), d _ (by omega), d _ (by omega), d _ (by omega), d _ (by omega),
    d _ (by omega), d _ (by omega), d _ (by omega), d _ (by omega), d _ (by omega),
    d _ (by omega), d _ (by omega), d _ (by omega), d _ (by omega)⟩

/-! ## The two formatters, line by line -/

theorem file_formatter_eq (rec : record_view)
    (hts : ∀ v, rec.TimeStamp ≠ some (ptime.special v)) :
    _internal_file_formatter rec "" = some (plain_line rec) := by
  rcases rec with ⟨sev, lid, ts, msg⟩
  rcases ts with _ | ⟨v | d⟩
  · cases sev <;> cases lid <;> cases msg <;>
      simp only [_internal_file_formatter, plain_line, shl_value_ref, shl_unsigned,
        sequence_text, stamp_bracket, severity_text, message_text,
        shl_severity_eq, String.append_assoc, String.empty_append, String.append_empty,
        Option.some_bind]
  · exact absurd rfl (hts v)
  · cases sev <;> cases lid <;> cases msg <;>
      simp only [_internal_file_formatter, plain_line, shl_value_ref, shl_unsigned,
        sequence_text, stamp_bracket, severity_text, message_text, to_tm,
        Option.map_some', shl_severity_eq, Option.some_bind] <;>
      (try split) <;>
      simp only [String.append_assoc, String.empty_append, String.append_empty,
        Option.some_bind]

theorem file_formatter_special (rec : record_view) (v : special_values)
    (h : rec.TimeStamp = some (ptime.special v)) :
    _internal_file_formatter rec "" = none := by
  rcases rec with ⟨sev, lid, ts, msg⟩
  cases h
  cases lid <;> rfl

theorem color_switch_eq (strm : String) (l : severity_level) :
    (if l = severity_level.debug then strm
      else if l = severity_level.info then strm ++ "\x1b[34m"
      else if l = severity_level.warning then strm ++ "\x1b[33m"
      else if l = severity_level.error then strm ++ "\x1b[31m"
      else if l = severity_level.fatal then strm ++ "\x1b[1;31m"
      else strm) = strm ++ color_escape l := by
  unfold color_escape
  by_cases h0 : l = severity_level.debug
  · subst h0
    simp only [if_true]
    rw [if_neg (by decide), if_neg (by decide), if_neg (by decide), if_neg (by decide)]
    exact (String.append_empty _).symm
  · rw [if_neg h0]
    split_ifs <;> first | rfl | exact (String.append_empty _).symm

theorem console_formatter_eq (rec : record_view)
    (hts : ∀ v, rec.TimeStamp ≠ some (ptime.special v)) :
    _internal_console_formatter rec "" =
      some (color_opening rec.Severity ++ plain_line rec ++
        (if rec.Severity.isSome then reset_escape else "")) := by
  rcases rec with ⟨sev, lid, ts, msg⟩
  rcases ts with _ | ⟨v | d⟩
  · cases sev <;> cases lid <;> cases msg <;>
      simp only [_internal_console_formatter, plain_line, shl_value_ref, shl_unsigned,
        sequence_text, stamp_bracket, severity_text, message_text, color_opening,
        color_switch_eq, reset_escape, shl_severity_eq, Option.isSome_some,
        Option.isSome_none, if_true, if_false, Bool.false_eq_true, Option.some_bind] <;>
      simp only [String.append_assoc, String.empty_append, String.append_empty,
        Option.some_bind]
  · exact absurd rfl (hts v)
  · cases sev <;> cases lid <;> cases msg <;>
      simp only [_internal_console_formatter, plain_line, shl_value_ref, shl_unsigned,
        sequence_text, stamp_bracket, severity_text, message_text, color_opening,
        color_switch_eq, reset_escape, to_tm, Option.map_some', shl_severity_eq,
        Option.isSome_some, Option.isSome_none, if_true, if_false, Bool.false_eq_true,
        Option.some_bind] <;>
      (try split) <;>
      simp only [String.append_assoc, String.empty_append, String.append_empty,
        Option.some_bind]

theorem console_formatter_special (rec : record_view) (v : special_values)
    (h : rec.TimeStamp = some (ptime.special v)) :
    _internal_console_formatter rec "" = none := by
  rcases rec with ⟨sev, lid, ts, msg⟩
  cases h
  cases lid <;> rfl

/-! ## The file line -/

/-- C3: for a record with sequence number `n`, an available regular timestamp, a
severity among the five levels and message `m`, the file formatter renders exactly
decimal(n), `": "`, the bracketed `YYYY-MM-DD HH:MM:SS`, the bracketed token, one
space and `m`. The sequence text is a non-empty run of digits, the timestamp has
the shape of four, two, two, two, two and two digits, and dropping the sequence
prefix and the timestamp bracket leaves exactly `[token] m`. -/
theorem C3_file_line (rec : record_view) (n : Nat) (ts : date_time) (s : severity_level)
    (m : String) (hn : rec.LineID = some n) (ht : rec.TimeStamp = some (ptime.regular ts))
    (hs : rec.Severity = some s) (h5 : 0 ≤ s.val ∧ s.val ≤ 4) (hm : rec.Message = some m) :
    _internal_file_formatter rec "" =
      some (toString n ++ ": " ++ "[" ++ YYYY_MM_DD_HH_MM_SS ts ++ "]" ++ "[" ++ token s
        ++ "] " ++ m) ∧
    (toString n).data ≠ [] ∧ (∀ c ∈ (toString n).data, c.isDigit = true) ∧
    stamp_shape (YYYY_MM_DD_HH_MM_SS ts).data = true ∧
    (toString n ++ ": " ++ "[" ++ YYYY_MM_DD_HH_MM_SS ts ++ "]" ++ "[" ++ token s
        ++ "] " ++ m).data.drop ((toString n).length + 2 + 21) =
      ("[" ++ token s ++ "] " ++ m).data := by
  refine ⟨?_, toString_nat_ne_nil n, toString_nat_digits n, stamp_shape_regular ts, ?_⟩
  · rw [file_formatter_eq rec (by intro v h; rw [ht] at h; cases h)]
    simp only [plain_line, hn, ht, hs, hm, sequence_text, severity_text, message_text,
      stamp_bracket_regular ts, display, h5, and_self, if_true, String.append_assoc]
  · have hY : (YYYY_MM_DD_HH_MM_SS ts).data.length = 19 := rfl
    have hsplit : (toString n ++ ": " ++ "[" ++ YYYY_MM_DD_HH_MM_SS ts ++ "]" ++ "[" ++
        token s ++ "] " ++ m).data =
        ((toString n).data ++ (": ".data ++ ("[".data ++ ((YYYY_MM_DD_HH_MM_SS ts).data
          ++ "]".data)))) ++ ("[" ++ token s ++ "] " ++ m).data := by
      simp only [String.data_append, List.append_assoc]
    have hlen : (toString n).length + 2 + 21 =
        ((toString n).data ++ (": ".data ++ ("[".data ++ ((YYYY_MM_DD_HH_MM_SS ts).data
          ++ "]".data)))).length := by
      simp only [List.length_append, hY, String.length]
      rfl
    rw [hsplit, hlen, List.drop_left]

theorem C3_file_line_witness :
    _internal_file_formatter
        ⟨some severity_level.warning, some 42, some (ptime.regular sample_time),
          some "disk at 91%"⟩
        "" = some "42: [2024-03-09 04:05:06][warn] disk at 91%" :=
  (C3_file_line
    ⟨some severity_level.warning, some 42, some (ptime.regular sample_time),
      some "disk at 91%"⟩
    42 sample_time severity_level.warning "disk at 91%" rfl rfl rfl (by decide) rfl).1

/-! ## Escape characters -/

theorem no_esc_append {a b : String} (ha : ESC ∉ a.data) (hb : ESC ∉ b.data) :
    ESC ∉ (a ++ b).data := by
  rw [String.data_append, List.mem_append]
  exact fun h => h.elim ha hb

theorem no_esc_of_digits (s : String) (h : ∀ c ∈ s.data, c.isDigit = true) :
    ESC ∉ s.data := by
  intro hmem
  have := h ESC hmem
  exact absurd this (by decide)

theorem no_esc_toString_nat (n : Nat) : ESC ∉ (toString n).data :=
  no_esc_of_digits _ (toString_nat_digits n)

theorem no_esc_toString_int (i : Int) : ESC ∉ (toString i).data := by
  cases i with
  | ofNat n => exact no_esc_toString_nat n
  | negSucc n =>
    show ESC ∉ ("-" ++ toString (Nat.succ n)).data
    exact no_esc_append (by decide) (no_esc_toString_nat _)

theorem no_esc_fmt2 (v : Int) : ESC ∉ (fmt2 v).data := by
  unfold fmt2
  split
  · exact no_esc_append (by decide) (no_esc_toString_int v)
  · exact no_esc_toString_int v

theorem no_esc_strftime_text (t : tm) : ESC ∉ (strftime_text t).data := by
  unfold strftime_text
  repeat' apply no_esc_append
  all_goals first | exact no_esc_toString_int _ | exact no_esc_fmt2 _ | decide

theorem no_esc_strftime_buf (maxsize : Nat) (t : tm) :
    ESC ∉ (strftime maxsize t).2.data := by
  unfold strftime
  dsimp only
  split
  · exact no_esc_strftime_text t
  · decide

theorem no_esc_lbracket : ESC ∉ "[".data := by decide

theorem no_esc_rbracket : ESC ∉ "]".data := by decide

theorem no_esc_stamp_bracket (o : Option ptime) : ESC ∉ (stamp_bracket o).data := by
  rcases o with _ | ⟨v | t⟩
  · exact List.not_mem_nil _
  · exact List.not_mem_nil _
  · by_cases h : (strftime 128 t.to_tm).1 > 0
    · rw [stamp_bracket, if_pos h]
      exact no_esc_append (no_esc_append no_esc_lbracket (no_esc_strftime_buf _ _))
        no_esc_rbracket
    · rw [stamp_bracket, if_neg h]
      exact List.not_mem_nil _

theorem no_esc_display (l : severity_level) : ESC ∉ (display l).data := by
  by_cases h : 0 ≤ l.val ∧ l.val ≤ 4
  · rcases five_levels l h with rfl | rfl | rfl | rfl | rfl <;> decide
  · simp only [display, h, if_false]
    exact no_esc_toString_int _

theorem no_esc_line_head (rec : record_view) :
    ESC ∉ (sequence_text rec.LineID ++ ": " ++ stamp_bracket rec.TimeStamp ++ "[" ++
      severity_text rec.Severity ++ "] ").data := by
  have h1 : ESC ∉ (sequence_text rec.LineID).data := by
    cases rec.LineID with
    | none => simp [sequence_text]
    | some n => exact no_esc_toString_nat n
  have h2 : ESC ∉ (severity_text rec.Severity).data := by
    cases rec.Severity with
    | none => simp [severity_text]
    | some l => exact no_esc_display l
  exact no_esc_append (no_esc_append (no_esc_append (no_esc_append
    (no_esc_append h1 (by decide)) (no_esc_stamp_bracket _)) (by decide)) h2) (by decide)

theorem no_esc_plain_line (rec : record_view)
    (hm : ∀ m, rec.Message = some m → ESC ∉ m.data) : ESC ∉ (plain_line rec).data := by
  unfold plain_line
  have h3 : ESC ∉ (message_text rec.Message).data := by
    cases hmsg : rec.Message with
    | none => simp [message_text]
    | some m => exact hm m hmsg
  exact no_esc_append (no_esc_line_head rec) h3

theorem occurrences_reset_skip (c : Char) (cs : List Char)
    (h : reset_escape.data.isPrefixOf (c :: cs) = false) :
    occurrences reset_escape.data (c :: cs) = occurrences reset_escape.data cs := by
  rw [occurrences, h]
  simp

theorem occurrences_reset_cons (c : Char) (cs : List Char) (hc : c ≠ ESC) :
    occurrences reset_escape.data (c :: cs) = occurrences reset_escape.data cs := by
  apply occurrences_reset_skip
  have hp : reset_escape.data = ESC :: ['[', '0', 'm'] := rfl
  have hne : (ESC == c) = false := by
    simpa using fun h : ESC = c => hc h.symm
  rw [hp, List.isPrefixOf, hne]
  rfl

theorem occurrences_reset_append (a b : List Char) (ha : ESC ∉ a) :
    occurrences reset_escape.data (a ++ b) = occurrences reset_escape.data b := by
  induction a with
  | nil => rfl
  | cons c cs ih =>
    rw [List.cons_append, occurrences_reset_cons _ _ (fun h => ha (h ▸ List.mem_cons_self _ _))]
    exact ih (fun h => ha (List.mem_cons_of_mem _ h))

theorem occurrences_reset_no_esc (a : List Char) (ha : ESC ∉ a) :
    occurrences reset_escape.data a = 0 := by
  have := occurrences_reset_append a [] ha
  rwa [List.append_nil] at this

theorem occurrences_reset_color (l : severity_level) (b : List Char) :
    occurrences reset_escape.data ((color_escape l).data ++ b) =
      occurrences reset_escape.data b := by
  have tail3 : ∀ x y z : Char, x ≠ ESC → y ≠ ESC → z ≠ ESC →
      occurrences reset_escape.data (x :: y :: z :: b) = occurrences reset_escape.data b := by
    intro x y z hx hy hz
    rw [occurrences_reset_cons _ _ hx, occurrences_reset_cons _ _ hy,
      occurrences_reset_cons _ _ hz]
  unfold color_escape
  split_ifs
  · show occurrences reset_escape.data (ESC :: '[' :: '3' :: '4' :: 'm' :: b) = _
    rw [occurrences_reset_skip ESC ('[' :: '3' :: '4' :: 'm' :: b) rfl,
      occurrences_reset_cons _ _ (by decide)]
    exact tail3 '3' '4' 'm' (by decide) (by decide) (by decide)
  · show occurrences reset_escape.data (ESC :: '[' :: '3' :: '3' :: 'm' :: b) = _
    rw [occurrences_reset_skip ESC ('[' :: '3' :: '3' :: 'm' :: b) rfl,
      occurrences_reset_cons _ _ (by decide)]
    exact tail3 '3' '3' 'm' (by decide) (by decide) (by decide)
  · show occurrences reset_escape.data (ESC :: '[' :: '3' :: '1' :: 'm' :: b) = _
    rw [occurrences_reset_skip ESC ('[' :: '3' :: '1' :: 'm' :: b) rfl,
      occurrences_reset_cons _ _ (by decide)]
    exact tail3 '3' '1' 'm' (by decide) (by decide) (by decide)
  · show occurrences reset_escape.data (ESC :: '[' :: '1' :: ';' :: '3' :: '1' :: 'm' :: b) = _
    rw [occurrences_reset_skip ESC ('[' :: '1' :: ';' :: '3' :: '1' :: 'm' :: b) rfl,
      occurrences_reset_cons _ _ (by decide),
      occurrences_reset_cons _ _ (by decide), occurrences_reset_cons _ _ (by decide)]
    exact tail3 '3' '1' 'm' (by decide) (by decide) (by decide)
  · rfl

theorem isPrefixOf_reset_append (c : Char) (cs t : List Char) :
    reset_escape.data.isPrefixOf (c :: cs ++ ESC :: t) =
      reset_escape.data.isPrefixOf (c :: cs) := by
  have hp : reset_escape.data = ESC :: ['[', '0', 'm'] := rfl
  have e1 : ('[' == ESC) = false := by decide
  have e2 : ('0' == ESC) = false := by decide
  have e3 : ('m' == ESC) = false := by decide
  rw [hp]
  rcases cs with _ | ⟨c1, _ | ⟨c2, _ | ⟨c3, r⟩⟩⟩ <;>
    simp [List.isPrefixOf, e1, e2, e3]

theorem occurrences_reset_append_esc (m t : List Char) :
    occurrences reset_escape.data (m ++ ESC :: t) =
      occurrences reset_escape.data m + occurrences reset_escape.data (ESC :: t) := by
  induction m with
  | nil => simp [occurrences]
  | cons c cs ih =>
    have hstep : occurrences reset_escape.data (c :: (cs ++ ESC :: t)) =
        (if reset_escape.data.isPrefixOf (c :: cs ++ ESC :: t) then 1 else 0) +
          occurrences reset_escape.data (cs ++ ESC :: t) := rfl
    have hstep' : occurrences reset_escape.data (c :: cs) =
        (if reset_escape.data.isPrefixOf (c :: cs) then 1 else 0) +
          occurrences reset_escape.data cs := rfl
    rw [List.cons_append, hstep, hstep', ih, isPrefixOf_reset_append]
    omega

theorem occurrences_reset_self : occurrences reset_escape.data reset_escape.data = 1 := by
  decide

theorem console_reset_count (rec : record_view)
    (hts : ∀ v, rec.TimeStamp ≠ some (ptime.special v)) :
    ∃ line, _internal_console_formatter rec "" = some line ∧
      (rec.Severity.isSome = true → reset_escape.data <:+ line.data) ∧
      occurrences reset_escape.data line.data =
        occurrences reset_escape.data (message_text rec.Message).data +
          (if rec.Severity.isSome then 1 else 0) := by
  refine ⟨_, console_formatter_eq rec hts, ?_, ?_⟩
  · intro hsome
    simp only [hsome, if_true, String.data_append]
    exact ⟨_, rfl⟩
  · have hhead := no_esc_line_head rec
    have hcol : occurrences reset_escape.data
        ((color_opening rec.Severity).data ++ ((plain_line rec).data ++
          (if rec.Severity.isSome then reset_escape else "").data)) =
        occurrences reset_escape.data ((plain_line rec).data ++
          (if rec.Severity.isSome then reset_escape else "").data) := by
      cases rec.Severity with
      | none => rfl
      | some l => exact occurrences_reset_color l _
    simp only [String.data_append, List.append_assoc]
    rw [hcol]
    simp only [plain_line, String.data_append, List.append_assoc] at hhead ⊢
    have hh := occurrences_reset_append
      ((sequence_text rec.LineID).data ++ (": ".data ++ ((stamp_bracket rec.TimeStamp).data ++
        ("[".data ++ ((severity_text rec.Severity).data ++ "] ".data)))))
      ((message_text rec.Message).data ++
        (if rec.Severity.isSome then reset_escape else "").data) hhead
    simp only [List.append_assoc] at hh
    rw [hh]
    cases rec.Severity with
    | none => simp
    | some l =>
      simp only [Option.isSome_some, if_true]
      have h1 := occurrences_reset_append_esc (message_text rec.Message).data ['[', '0', 'm']
      have h2 : occurrences reset_escape.data (ESC :: ['[', '0', 'm']) = 1 :=
        occurrences_reset_self
      rw [h2] at h1
      exact h1

/-! ## The console line -/

/-- C2, the claim fails: the console line of a debug record, which opens with no
colour escape, still ends with the reset escape; a coloured line whose message
itself holds the reset escape contains it twice; and for a record whose timestamp
is a special value the formatter returns no line, so the colour of an info record
is never closed. -/
theorem C2_counterexample :
    (_internal_console_formatter
        ⟨some severity_level.debug, some 1, none, some "x"⟩ "" = some "1: [debg] x\x1b[0m" ∧
      occurrences reset_escape.data "1: [debg] x\x1b[0m".data = 1) ∧
    (_internal_console_formatter
        ⟨some severity_level.info, some 1, none, some "\x1b[0m"⟩ ""
        = some "\x1b[34m1: [info] \x1b[0m\x1b[0m" ∧
      occurrences reset_escape.data "\x1b[34m1: [info] \x1b[0m\x1b[0m".data = 2) ∧
    _internal_console_formatter
        ⟨some severity_level.info, some 1,
          some (ptime.special special_values.not_a_date_time), some "x"⟩ "" = none := by
  decide

/-- C2 as amended: for a record whose timestamp is absent or regular and whose
message does not contain the reset escape (other escape sequences are allowed), the
console line ends with the reset escape and contains it exactly once whenever the
record carries a severity value (a colour escape emitted or not, so also for debug),
and contains no reset escape when the record carries no severity value. -/
theorem C2_reset_by_severity (rec : record_view)
    (hts : ∀ v, rec.TimeStamp ≠ some (ptime.special v))
    (hm : ∀ m, rec.Message = some m → occurrences reset_escape.data m.data = 0) :
    ∃ line, _internal_console_formatter rec "" = some line ∧
      (rec.Severity.isSome = true →
        reset_escape.data <:+ line.data ∧ occurrences reset_escape.data line.data = 1) ∧
      (rec.Severity = none → occurrences reset_escape.data line.data = 0) := by
  obtain ⟨line, hline, hsuf, hcount⟩ := console_reset_count rec hts
  have hmsg : occurrences reset_escape.data (message_text rec.Message).data = 0 := by
    cases hmm : rec.Message with
    | none => rfl
    | some m => exact hm m hmm
  rw [hmsg] at hcount
  refine ⟨line, hline, fun hsome => ⟨hsuf hsome, ?_⟩, fun hnone => ?_⟩
  · rw [hcount, hsome]; rfl
  · rw [hcount, hnone]; rfl

theorem C2_reset_by_severity_witness :
    ∃ line, _internal_console_formatter
        ⟨some severity_level.debug, some 1, some (ptime.regular sample_time),
          some "\x1b[1mbold"⟩ "" = some line ∧
      ((some severity_level.debug).isSome = true →
        reset_escape.data <:+ line.data ∧ occurrences reset_escape.data line.data = 1) ∧
      ((some severity_level.debug) = none → occurrences reset_escape.data line.data = 0) :=
  C2_reset_by_severity
    ⟨some severity_level.debug, some 1, some (ptime.regular sample_time), some "\x1b[1mbold"⟩
    (by intro v h; cases h) (by intro m h; cases h; decide)

/-- C8, the claim fails: when the timestamp is a special value its formatting fails,
`to_tm` throws, and neither formatter renders the rest of the line. -/
theorem C8_counterexample :
    to_tm (ptime.special special_values.not_a_date_time) = none ∧
    _internal_file_formatter
      ⟨some severity_level.info, some 1,
        some (ptime.special special_values.not_a_date_time), some "x"⟩ "" = none ∧
    _internal_console_formatter
      ⟨some severity_level.info, some 1,
        some (ptime.special special_values.not_a_date_time), some "x"⟩ "" = none := by
  decide

/-- C8 as amended: for a record with severity `s` and message `m` that has no
timestamp, both formatters write no timestamp bracket: the file line is the sequence
text (decimal, empty when the record has no `LineID`), `": "`, the bracketed display
text of `s`, one space and `m`, and the console line is that same text between the
colour escape of `s` and the reset escape. For a regular timestamp the `strftime`
call always stores the 19 characters of `YYYY-MM-DD HH:MM:SS`, so its bracket is
never skipped. -/
theorem C8_no_timestamp (rec : record_view) (s : severity_level) (m : String)
    (hs : rec.Severity = some s) (hm : rec.Message = some m) (ht : rec.TimeStamp = none) :
    _internal_file_formatter rec "" =
      some (sequence_text rec.LineID ++ ": " ++ "[" ++ display s ++ "] " ++ m) ∧
    _internal_console_formatter rec "" =
      some (color_escape s ++ (sequence_text rec.LineID ++ ": " ++ "[" ++ display s ++ "] "
        ++ m) ++ reset_escape) ∧
    (∀ t : date_time, strftime 128 t.to_tm = (19, YYYY_MM_DD_HH_MM_SS t)) := by
  have hts : ∀ v, rec.TimeStamp ≠ some (ptime.special v) := by
    intro v h; rw [ht] at h; cases h
  have hp : plain_line rec =
      sequence_text rec.LineID ++ ": " ++ "[" ++ display s ++ "] " ++ m := by
    simp only [plain_line, hs, hm, ht, stamp_bracket, severity_text, message_text,
      String.append_empty]
  rw [file_formatter_eq rec hts, console_formatter_eq rec hts, hp]
  simp only [hs, Option.isSome_some, if_true, color_opening, true_and]
  exact strftime_regular

theorem C8_no_timestamp_witness :
    (log severity_level.info [arg.str "up"] ⟨1, sample_time⟩
        (_internal_init_console_sink severity_level.debug core.uninitialized)).2 =
      some ⟨some severity_level.info, none, none, some "up"⟩ ∧
    _internal_file_formatter ⟨some severity_level.info, none, none, some "up"⟩ "" =
      some ": [info] up" ∧
    _internal_console_formatter ⟨some severity_level.info, none, none, some "up"⟩ "" =
      some "\x1b[34m: [info] up\x1b[0m" ∧
    _internal_file_formatter ⟨some severity_level.error, some 7, none, some "boom"⟩ "" =
      some "7: [errr] boom" :=
  ⟨rfl,
    (C8_no_timestamp ⟨some severity_level.info, none, none, some "up"⟩
      severity_level.info "up" rfl rfl rfl).1,
    (C8_no_timestamp ⟨some severity_level.info, none, none, some "up"⟩
      severity_level.info "up" rfl rfl rfl).2.1,
    (C8_no_timestamp ⟨some severity_level.error, some 7, none, some "boom"⟩
      severity_level.error "boom" rfl rfl rfl).1⟩

/-- C9: for a record with severity `s` and sequence number `n` whose timestamp is
absent or regular, the console line begins with the colour escape of `s`,
immediately followed by decimal(n) and `": "`; the escape is `\033[34m` for info,
`\033[33m` for warning, `\033[31m` for error, `\033[1;31m` for fatal and empty for
debug. -/
theorem C9_console_line_start (rec : record_view) (n : Nat) (s : severity_level)
    (hn : rec.LineID = some n) (hs : rec.Severity = some s)
    (hts : ∀ v, rec.TimeStamp ≠ some (ptime.special v)) :
    (∃ rest, _internal_console_formatter rec "" =
      some (color_escape s ++ toString n ++ ": " ++ rest)) ∧
    color_escape severity_level.debug = "" ∧
    color_escape severity_level.info = "\x1b[34m" ∧
    color_escape severity_level.warning = "\x1b[33m" ∧
    color_escape severity_level.error = "\x1b[31m" ∧
    color_escape severity_level.fatal = "\x1b[1;31m" := by
  refine ⟨⟨stamp_bracket rec.TimeStamp ++ "[" ++ severity_text rec.Severity ++ "] " ++
    message_text rec.Message ++ reset_escape, ?_⟩, rfl, rfl, rfl, rfl, rfl⟩
  rw [console_formatter_eq rec hts]
  simp only [plain_line, hn, hs, sequence_text, color_opening, Option.isSome_some, if_true,
    String.append_assoc]

theorem C9_console_line_start_witness :
    ∃ rest, _internal_console_formatter
        ⟨some severity_level.fatal, some 15, some (ptime.regular sample_time), some "down"⟩ ""
      = some ("\x1b[1;31m" ++ "15" ++ ": " ++ rest) :=
  (C9_console_line_start
    ⟨some severity_level.fatal, some 15, some (ptime.regular sample_time), some "down"⟩ 15
    severity_level.fatal rfl rfl (by intro v h; cases h)).1

/-- C10: for every record whose timestamp is absent or regular, the console line is
the file line between a leading colour escape (one of the four, or nothing) and a
trailing reset escape (or nothing); the file formatter adds no escape sequence, so
the file line of a record whose message holds no ESC character holds no ESC
character. -/
theorem C10_file_is_console_body (rec : record_view)
    (hts : ∀ v, rec.TimeStamp ≠ some (ptime.special v)) :
    ∃ file_line pre suf,
      _internal_file_formatter rec "" = some file_line ∧
      _internal_console_formatter rec "" = some (pre ++ file_line ++ suf) ∧
      pre ∈ ["", "\x1b[34m", "\x1b[33m", "\x1b[31m", "\x1b[1;31m"] ∧
      suf ∈ ["", "\x1b[0m"] ∧
      ((∀ m, rec.Message = some m → ESC ∉ m.data) → ESC ∉ file_line.data) := by
  refine ⟨plain_line rec, color_opening rec.Severity,
    if rec.Severity.isSome then reset_escape else "", file_formatter_eq rec hts,
    console_formatter_eq rec hts, ?_, ?_, no_esc_plain_line rec⟩
  · cases rec.Severity with
    | none => simp [color_opening]
    | some l =>
      simp only [color_opening, color_escape]
      split_ifs <;> simp
  · cases rec.Severity <;> simp [reset_escape]

theorem C10_file_is_console_body_witness :
    ∃ file_line pre suf,
      _internal_file_formatter
        ⟨some severity_level.warning, some 3, some (ptime.regular sample_time), some "hot"⟩ ""
        = some file_line ∧
      _internal_console_formatter
        ⟨some severity_level.warning, some 3, some (ptime.regular sample_time), some "hot"⟩ ""
        = some (pre ++ file_line ++ suf) ∧
      pre ∈ ["", "\x1b[34m", "\x1b[33m", "\x1b[31m", "\x1b[1;31m"] ∧
      suf ∈ ["", "\x1b[0m"] ∧
      ((∀ m, some "hot" = some m → ESC ∉ m.data) → ESC ∉ file_line.data) :=
  C10_file_is_console_body
    ⟨some severity_level.warning, some 3, some (ptime.regular sample_time), some "hot"⟩
    (by intro v h; cases h)

/-! ## Dispatch -/

theorem zipWith_map_self {α β : Type} (f : α → β → α) (g : α → β) (l : List α) :
    List.zipWith f l (l.map g) = l.map (fun a => f a (g a)) := by
  induction l with
  | nil => rfl
  | cons a l ih => simp [List.zipWith, ih]

theorem foldl_shl_arg (args : List arg) (acc : String) :
    args.foldl shl_arg acc = acc ++ concat_text args := by
  induction args generalizing acc with
  | nil => simp [concat_text]
  | cons a rest ih =>
    rw [List.foldl_cons, ih, concat_text, ← String.append_assoc]
    congr 1
    cases a with
    | str x => rfl
    | chr ch =>
      simp only [shl_arg, text]
      apply String.ext
      simp [String.push, String.singleton]
    | int i =>
      simp only [shl_arg, text, shl_int, ostream.write,
        num_put_int_dec fmtflags.default i rfl rfl]
    | unsigned n => rfl

theorem log_of_accepting (level : severity_level) (args : List arg)
    (env : attribute_readings) (c : core)
    (h : ∃ s ∈ c.m_sinks, s.filter (opened_attrs level env c) = true) :
    log level args env c =
      ({ c with m_sinks := c.m_sinks.map fun s =>
            if s.filter (opened_attrs level env c) then
              s.consume { opened_attrs level env c with Message := some (concat_text args) }
            else s },
        some { opened_attrs level env c with Message := some (concat_text args) }) := by
  obtain ⟨s, hs, hacc⟩ := h
  have hne : c.m_sinks.isEmpty = false := by
    cases hc : c.m_sinks with
    | nil => rw [hc] at hs; cases hs
    | cons a l => rfl
  have hany : (c.m_sinks.map fun s => s.will_consume (opened_attrs level env c)).any id
      = true := by
    rw [List.any_eq_true]
    exact ⟨s.will_consume (opened_attrs level env c), List.mem_map.mpr ⟨s, hs, rfl⟩, hacc⟩
  have hopen : c.open_record (opened_attrs level env c) =
      some { view := opened_attrs level env c
             accepting := c.m_sinks.map fun s => s.will_consume (opened_attrs level env c)
             default_accepting := false } := by
    simp only [core.open_record, hne, hany, if_true, Bool.false_eq_true, if_false]
  have hlog : log level args env c =
      match c.open_record (opened_attrs level env c) with
      | some r =>
        (c.push_record { r with view := { r.view with Message := some (args.foldl shl_arg "") } },
          some { r.view with Message := some (args.foldl shl_arg "") })
      | none => (c, none) := rfl
  rw [hlog, hopen]
  simp only [core.push_record, zipWith_map_self, foldl_shl_arg, String.empty_append,
    sink.will_consume, Bool.false_eq_true, if_false]

theorem log_of_rejecting (level : severity_level) (args : List arg)
    (env : attribute_readings) (c : core) (hne : c.m_sinks ≠ [])
    (h : ∀ s ∈ c.m_sinks, s.filter (opened_attrs level env c) = false) :
    log level args env c = (c, none) := by
  have hemp : c.m_sinks.isEmpty = false := by
    cases hc : c.m_sinks with
    | nil => exact absurd hc hne
    | cons a l => rfl
  have hany : (c.m_sinks.map fun s => s.will_consume (opened_attrs level env c)).any id
      = false := by
    rw [List.any_eq_false]
    intro b hb
    obtain ⟨s, hs, rfl⟩ := List.mem_map.mp hb
    simp [sink.will_consume, h s hs]
  have hopen : c.open_record (opened_attrs level env c) = none := by
    simp only [core.open_record, hemp, hany, Bool.false_eq_true, if_false]
  have hlog : log level args env c =
      match c.open_record (opened_attrs level env c) with
      | some r =>
        (c.push_record { r with view := { r.view with Message := some (args.foldl shl_arg "") } },
          some { r.view with Message := some (args.foldl shl_arg "") })
      | none => (c, none) := rfl
  rw [hlog, hopen]

theorem open_record_view (c : core) (attrs : record_view) (r : record)
    (h : c.open_record attrs = some r) : r.view = attrs := by
  unfold core.open_record at h
  split at h
  · cases h; rfl
  · dsimp only at h
    split at h
    · cases h; rfl
    · cases h

theorem opened_attrs_filter (T S : severity_level) (env : attribute_readings) (c : core) :
    severity_filter T (opened_attrs S env c) = decide (T.val ≤ S.val) := rfl

theorem formatter_total (f : record_view → String → Option String)
    (hf : f = _internal_console_formatter ∨ f = _internal_file_formatter)
    (rec : record_view) (hts : ∀ v, rec.TimeStamp ≠ some (ptime.special v)) :
    ∃ line, f rec "" = some line := by
  rcases hf with rfl | rfl
  · exact ⟨_, console_formatter_eq rec hts⟩
  · exact ⟨_, file_formatter_eq rec hts⟩

theorem opened_attrs_regular (S : severity_level) (env : attribute_readings) (c : core)
    (msg : Option String) (v : special_values) :
    ({ opened_attrs S env c with Message := msg } : record_view).TimeStamp ≠
      some (ptime.special v) := by
  simp only [opened_attrs]
  split <;> intro h <;> cases h

/-- C1: in any set of registered sinks, a sink with threshold `T` (formatting with
the console or the file formatter) is handed a record of severity `S` exactly when
`T ≤ S`: then its output grows by the one formatted line, otherwise the sink is
unchanged, whatever the filters of the other sinks. A threshold of warning rejects
debug and info and accepts warning, error and fatal. -/
theorem C1_sink_filter (c : core) (S : severity_level) (args : List arg)
    (env : attribute_readings) (i : Nat) (s : sink) (T : severity_level)
    (hi : c.m_sinks[i]? = some s) (hT : s.filter = severity_filter T)
    (hf : s.formatter = _internal_console_formatter ∨
      s.formatter = _internal_file_formatter) :
    (∃ s', (log S args env c).1.m_sinks[i]? = some s' ∧
      (T.val ≤ S.val → ∃ rec line, (log S args env c).2 = some rec ∧
        rec.Severity = some S ∧ s.formatter rec "" = some line ∧
        s'.written = s.written ++ [line]) ∧
      (S.val < T.val → s' = s)) ∧
    (∀ lid ts msg,
      severity_filter severity_level.warning ⟨some severity_level.debug, lid, ts, msg⟩ = false ∧
      severity_filter severity_level.warning ⟨some severity_level.info, lid, ts, msg⟩ = false ∧
      severity_filter severity_level.warning ⟨some severity_level.warning, lid, ts, msg⟩ = true ∧
      severity_filter severity_level.warning ⟨some severity_level.error, lid, ts, msg⟩ = true ∧
      severity_filter severity_level.warning ⟨some severity_level.fatal, lid, ts, msg⟩ = true) := by
  refine ⟨?_, fun lid ts msg => ⟨rfl, rfl, rfl, rfl, rfl⟩⟩
  have hmem : s ∈ c.m_sinks := List.getElem?_mem hi
  have hfil : s.filter (opened_attrs S env c) = decide (T.val ≤ S.val) := by
    rw [hT, opened_attrs_filter]
  by_cases hacc : ∃ s0 ∈ c.m_sinks, s0.filter (opened_attrs S env c) = true
  · rw [log_of_accepting S args env c hacc]
    simp only [List.getElem?_map, hi, Option.map_some', hfil]
    refine ⟨_, rfl, ?_, ?_⟩
    · intro hle
      obtain ⟨line, hline⟩ := formatter_total s.formatter hf
        { opened_attrs S env c with Message := some (concat_text args) }
        (opened_attrs_regular S env c _)
      refine ⟨_, line, rfl, rfl, hline, ?_⟩
      simp only [hle, decide_True, if_true, sink.consume, hline]
    · intro hlt
      have : ¬ T.val ≤ S.val := by omega
      simp only [this, decide_False, Bool.false_eq_true, if_false]
  · have hall : ∀ s0 ∈ c.m_sinks, s0.filter (opened_attrs S env c) = false := by
      intro s0 h0
      cases hv : s0.filter (opened_attrs S env c) with
      | false => rfl
      | true => exact absurd ⟨s0, h0, hv⟩ hacc
    have hne : c.m_sinks ≠ [] := List.ne_nil_of_mem hmem
    rw [log_of_rejecting S args env c hne hall]
    refine ⟨s, hi, ?_, fun _ => rfl⟩
    intro hle
    have := hall s hmem
    rw [hfil] at this
    simp [hle] at this

theorem C1_sink_filter_witness :
    ∃ s', (log severity_level.info [arg.str "up"] ⟨1, sample_time⟩
        (_internal_init_file_sink severity_level.warning "app"
          (_internal_init_console_sink severity_level.debug core.uninitialized))).1.m_sinks[1]?
        = some s' ∧
      s' = { stream := destination.ofstream "app_%N.log"
             formatter := _internal_file_formatter
             filter := severity_filter severity_level.warning
             written := [] } :=
  have h := (C1_sink_filter
    (_internal_init_file_sink severity_level.warning "app"
      (_internal_init_console_sink severity_level.debug core.uninitialized))
    severity_level.info [arg.str "up"] ⟨1, sample_time⟩ 1
    { stream := destination.ofstream "app_%N.log"
      formatter := _internal_file_formatter
      filter := severity_filter severity_level.warning
      written := [] }
    severity_level.warning rfl rfl (Or.inr rfl)).1
  h.elim fun s' hs' => ⟨s', hs'.1, hs'.2.2 (by decide)⟩

/-- C6: whenever some registered sink accepts the record of an emission call, the
call pushes one record whose message is the concatenation of the texts of the
arguments in call order, with nothing added, and whose severity is the level of the
call; every accepting sink consumes that very record and the other sinks stay as
they are. This holds for `log` at any level and for `debug`, `info`, `warning`,
`error` and `fatal` at their fixed levels. -/
theorem C6_message_concat (args : List arg) (env : attribute_readings) (c : core) :
    (∀ level : severity_level,
      (∃ s ∈ c.m_sinks, s.filter (opened_attrs level env c) = true) →
      ∃ rec : record_view,
        rec.Message = some (concat_text args) ∧ rec.Severity = some level ∧
        log level args env c =
          ({ c with m_sinks := c.m_sinks.map fun s =>
              if s.filter (opened_attrs level env c) then s.consume rec else s },
            some rec)) ∧
    (∀ p ∈ [(debug, severity_level.debug), (info, severity_level.info),
        (warning, severity_level.warning), (error, severity_level.error),
        (fatal, severity_level.fatal)],
      (∃ s ∈ c.m_sinks, s.filter (opened_attrs p.2 env c) = true) →
      ∃ rec : record_view,
        rec.Message = some (concat_text args) ∧ rec.Severity = some p.2 ∧
        p.1 args env c =
          ({ c with m_sinks := c.m_sinks.map fun s =>
              if s.filter (opened_attrs p.2 env c) then s.consume rec else s },
            some rec)) := by
  have key : ∀ level : severity_level,
      (∃ s ∈ c.m_sinks, s.filter (opened_attrs level env c) = true) →
      ∃ rec : record_view,
        rec.Message = some (concat_text args) ∧ rec.Severity = some level ∧
        log level args env c =
          ({ c with m_sinks := c.m_sinks.map fun s =>
              if s.filter (opened_attrs level env c) then s.consume rec else s },
            some rec) := by
    intro level h
    exact ⟨{ opened_attrs level env c with Message := some (concat_text args) }, rfl, rfl,
      log_of_accepting level args env c h⟩
  refine ⟨key, ?_⟩
  intro p hp h
  simp only [List.mem_cons, List.mem_singleton, List.not_mem_nil, or_false] at hp
  rcases hp with rfl | rfl | rfl | rfl | rfl <;> exact key _ h

theorem C6_message_concat_witness :
    ∃ rec : record_view,
      rec.Message = some "a1b" ∧ rec.Severity = some severity_level.debug ∧
      debug [arg.str "a", arg.int 1, arg.str "b"] ⟨1, sample_time⟩
          (init "app" severity_level.debug core.uninitialized) =
        ({ init "app" severity_level.debug core.uninitialized with
            m_sinks := (init "app" severity_level.debug core.uninitialized).m_sinks.map fun s =>
              if s.filter (opened_attrs severity_level.debug ⟨1, sample_time⟩
                  (init "app" severity_level.debug core.uninitialized))
              then s.consume rec else s },
          some rec) :=
  (C6_message_concat [arg.str "a", arg.int 1, arg.str "b"] ⟨1, sample_time⟩
    (init "app" severity_level.debug core.uninitialized)).2
    (debug, severity_level.debug) (List.mem_cons_self _ _)
    ⟨{ stream := destination.clog
       formatter := _internal_console_formatter
       filter := severity_filter severity_level.debug
       written := [] }, List.mem_cons_self _ _, rfl⟩

/-- C7: one call of `init` at level `lvl` on the uninitialized core registers exactly two
sinks, the console sink with the console formatter and the file sink with the file
formatter, both filtering at `lvl`; an emission of any severity below `lvl` then
leaves the core as it was, so neither sink writes, and opens no record, so no
message is built. -/
theorem C7_init_two_sinks ( file_prefix : String) (lvl : severity_level) :
    (init file_prefix lvl core.uninitialized).m_sinks =
      [{ stream := destination.clog
         formatter := _internal_console_formatter
         filter := severity_filter lvl
         written := [] },
       { stream := destination.ofstream ( file_prefix ++ "_%N.log")
         formatter := _internal_file_formatter
         filter := severity_filter lvl
         written := [] }] ∧
    ∀ (S : severity_level) (args : List arg) (env : attribute_readings),
      S.val < lvl.val →
      log S args env (init file_prefix lvl core.uninitialized) =
        (init file_prefix lvl core.uninitialized, none) := by
  refine ⟨rfl, ?_⟩
  intro S args env hlt
  apply log_of_rejecting
  · intro h; cases h
  · intro s hs
    have hs' : s.filter = severity_filter lvl := by
      simp only [init, add_common_attributes, _internal_init_file_sink,
        _internal_init_console_sink, core.add_sink, core.uninitialized, List.nil_append,
        List.cons_append, List.mem_cons, List.mem_singleton, List.not_mem_nil, or_false] at hs
      rcases hs with rfl | rfl <;> rfl
    rw [hs', opened_attrs_filter]
    simp only [decide_eq_false_iff_not]
    omega

theorem C7_init_two_sinks_witness :
    info [arg.str "ignored"] ⟨1, sample_time⟩
        (init "app" severity_level.error core.uninitialized) =
      (init "app" severity_level.error core.uninitialized, none) ∧
    (init "app" severity_level.error core.uninitialized).m_sinks.map sink.written = [[], []] :=
  ⟨(C7_init_two_sinks "app" severity_level.error).2 severity_level.info [arg.str "ignored"]
    ⟨1, sample_time⟩ (by decide), rfl⟩

end logger
